import Mathlib

/-!
Verification of the slab allocator in `src/slab.hpp` (namespace `slab`,
class `SlabAllocator`, current single-list revision with a `cache` pointer
and a move-to-front promotion heuristic).

Embedding conventions:
* `uint64_t bitMap` is a `Nat` kept below `2 ^ 64`; bit `i = 1` means unit
  `i` is free, exactly as in the source.
* `uint32_t` counters (`total_count`, `reserved_count`, `freedCount`) are
  `Nat`s and every `++` / `--` of the source goes through `inc32` / `dec32`,
  which wrap modulo `2 ^ 32` like release-mode C++ (the source guards the
  decrements with `assert`, which is compiled out in release builds).
* The intrusive doubly-linked block list rooted at `head` is a `List`
  ordered by `next` links (`head` first).  The `cache` pointer is the
  position `cacheIdx` of the cached block inside that list; `prev` pointers
  are implied by the list order.
* A payload pointer is `Option Ptr`: `none` is the null pointer, and a
  non-null pointer carries the data the source recovers by pointer
  arithmetic: the owning allocator's identity (`SlabBlock::allocator`,
  modelled by a numeric `tag`), the owning block (its current list
  position), and `SlabUnit::index`.
* The raw memory source `_malloc` is an oracle flag `ok : Bool` passed to
  the operations that may call `SlabBlock::create`; `ok = false` models
  `_malloc` returning `nullptr`.
-/

set_option maxRecDepth 4000

/-- `UINT64_MAX`, the all-free bitmap. -/
def U64MAX : Nat := 2 ^ 64 - 1

/-- `traverse_threshold` from `slab.hpp` (promotion threshold for `allocate`). -/
def traverse_threshold : Nat := 4

/-- Wrapping `uint32_t` increment (`++x` in the source). -/
def inc32 (x : Nat) : Nat := (x + 1) % 2 ^ 32

/-- Wrapping `uint32_t` decrement (`--x` in the source). -/
def dec32 (x : Nat) : Nat := (x + (2 ^ 32 - 1)) % 2 ^ 32

/-- Iterated `dec32`, one step per destroyed block (used by `reclaim`). -/
def dec32Iter (x : Nat) : Nat → Nat
  | 0 => x
  | n + 1 => dec32Iter (dec32 x) n

/-- Modelled from the spec: `bits.hpp` is not under `src/`; §2 BitPrimitives
"test bit i" (`bits::get`). -/
def bitsGet (b i : Nat) : Nat := if b.testBit i then 1 else 0

/-- Modelled from the spec: `bits.hpp` is not under `src/`; §2 BitPrimitives
"clear bit i" (`bits::set_zero`), within a 64-bit word. -/
def set_zero (b i : Nat) : Nat := b &&& (U64MAX ^^^ 2 ^ i)

/-- Modelled from the spec: `bits.hpp` is not under `src/`; §2 BitPrimitives
"set bit i" (`bits::set_one`). -/
def set_one (b i : Nat) : Nat := b ||| 2 ^ i

/-- Modelled from the spec: `bits.hpp` is not under `src/`; §2 BitPrimitives
"count trailing zero bits" (`bits::ctz64`), by scanning from bit 0. -/
def ctzAux : Nat → Nat → Nat
  | 0, _ => 0
  | fuel + 1, n => if n % 2 = 1 then 0 else ctzAux fuel (n / 2) + 1

/-- Modelled from the spec: `bits.hpp` is not under `src/`; `bits::ctz64`
on a 64-bit word (`ctz64 0 = 64`, as for hardware `tzcnt`). -/
def ctz64 (b : Nat) : Nat := ctzAux 64 b

/-- Modelled from the spec: `bits.hpp` is not under `src/`; §2 BitPrimitives
"population count" (`bits::popcnt64`) of a 64-bit word. -/
def popcnt64 (b : Nat) : Nat := (List.range 64).countP (fun i => b.testBit i)

/-- `SlabAllocator::SlabBlock`.  The `allocator` back pointer is implied by
which allocator's `blocks` list the block sits in, and `next` / `prev` by
the list order, so only the occupancy bitmap remains as data. -/
structure SlabBlock where
  bitMap : Nat
deriving DecidableEq

/-- `SlabBlock::isFull`. -/
def SlabBlock.isFull (b : SlabBlock) : Bool := b.bitMap == 0

/-- `SlabBlock::isEmpty`. -/
def SlabBlock.isEmpty (b : SlabBlock) : Bool := b.bitMap == U64MAX

/-- `SlabBlock::isUnitAllocated` (bit 0 means allocated). -/
def SlabBlock.isUnitAllocated (b : SlabBlock) (i : Nat) : Bool :=
  bitsGet b.bitMap i == 0

/-- `SlabBlock::allocateUnit`: grab the unit at the lowest free bit and
clear that bit; returns the unit's index together with the updated block. -/
def SlabBlock.allocateUnit (b : SlabBlock) : Nat × SlabBlock :=
  let index := ctz64 b.bitMap
  (index, ⟨set_zero b.bitMap index⟩)

/-- A freshly constructed block (`SlabBlock::construct`): all 64 bits free. -/
def SlabBlock.fresh : SlabBlock := ⟨U64MAX⟩

/-- What the source's pointer arithmetic recovers from a non-null payload
pointer in `deallocate`: `slab->allocator` (as a numeric identity tag),
the owning block (as its position in the owner's list), and `unit->index`. -/
structure Ptr where
  owner : Nat
  blockIdx : Nat
  unitIdx : Nat
deriving DecidableEq

/-- `class SlabAllocator` state.  `tag` models the allocator's own address
identity (what `slab->allocator != this` compares). -/
structure SlabAllocator where
  tag : Nat
  unitMetaSize : Nat
  blocks : List SlabBlock
  cacheIdx : Nat
  total_count : Nat
  reserved_count : Nat
  reserved_limit : Nat
deriving DecidableEq

/-- The `SlabAllocator(unitSize, reserved_limit)` constructor: one fresh
block that is both `head` and `cache`, counters `total = reserved = 1`,
limit clamped to at least 1, `unitMetaSize = sizeof(SlabUnit) + align8(...)`. -/
def SlabAllocator.create (tag unitSize reserved_limit : Nat) : SlabAllocator :=
  { tag := tag
    unitMetaSize := 8 + ((unitSize + 7) &&& (2 ^ 32 - 8))
    blocks := [SlabBlock.fresh]
    cacheIdx := 0
    total_count := 1
    reserved_count := 1
    reserved_limit := max reserved_limit 1 }

/-- The scan of `allocate`'s while loop: position and contents of the first
block that is not full (the loop's `current` when it exits), or `none` when
the list is exhausted (`current->next == nullptr` with every block full). -/
def findNonFull : List SlabBlock → Option (Nat × SlabBlock)
  | [] => none
  | b :: bs =>
    if b.isFull then (findNonFull bs).map (fun pc => (pc.1 + 1, pc.2))
    else some (0, b)

/-- The slow path of `SlabAllocator::allocate` (cache full): scan from
`head`; on exhaustion create a block at the head (or fail if `_malloc`
fails, modelled by `ok = false`); on a find deeper than
`traverse_threshold`, move the found block to the head. -/
def SlabAllocator.allocSlow (ok : Bool) (s : SlabAllocator) :
    Option (Nat × Nat) × SlabAllocator :=
  match findNonFull s.blocks with
  | none =>
    if ok then
      let r := SlabBlock.fresh.allocateUnit
      (some (0, r.1),
       { s with blocks := r.2 :: s.blocks, cacheIdx := 0,
                total_count := inc32 s.total_count })
    else (none, s)
  | some (p, b) =>
    let r := b.allocateUnit
    let rc := if b.isEmpty then dec32 s.reserved_count else s.reserved_count
    if traverse_threshold < p then
      (some (0, r.1),
       { s with blocks := r.2 :: s.blocks.eraseIdx p, cacheIdx := 0,
                reserved_count := rc })
    else
      (some (p, r.1),
       { s with blocks := s.blocks.set p r.2, cacheIdx := p,
                reserved_count := rc })

/-- `SlabAllocator::allocate`.  Returns the served unit as
`some (position of the serving block in the resulting list, unit index)`,
or `none` on allocation failure.  A dangling `cacheIdx` (never reachable:
the source would dereference the pointer) answers like the `_DEBUG` null
check: fail without touching anything. -/
def SlabAllocator.allocate (ok : Bool) (s : SlabAllocator) :
    Option (Nat × Nat) × SlabAllocator :=
  match s.blocks[s.cacheIdx]? with
  | none => (none, s)
  | some cb =>
    if cb.isFull then s.allocSlow ok
    else
      let r := cb.allocateUnit
      let rc := if cb.isEmpty then dec32 s.reserved_count else s.reserved_count
      (some (s.cacheIdx, r.1),
       { s with blocks := s.blocks.set s.cacheIdx r.2, reserved_count := rc })

/-- `SlabAllocator::deallocate`.  Mirrors the source's check order: null
pointer, `unit->index >= 64`, `slab->allocator != this`, double free; then
frees the bit and applies the retention policy (destroy the now-empty block
when `reserved_count` would exceed `reserved_limit`, fixing up `head` /
`cache`). -/
def SlabAllocator.deallocate (s : SlabAllocator) (p : Option Ptr) : SlabAllocator :=
  match p with
  | none => s
  | some pt =>
    if 64 ≤ pt.unitIdx then s
    else if pt.owner ≠ s.tag then s
    else
      match s.blocks[pt.blockIdx]? with
      | none => s
      | some b =>
        if b.isUnitAllocated pt.unitIdx then
          let nb : SlabBlock := ⟨set_one b.bitMap pt.unitIdx⟩
          if nb.isEmpty then
            let r1 := inc32 s.reserved_count
            if s.reserved_limit < r1 then
              { s with blocks := s.blocks.eraseIdx pt.blockIdx,
                       cacheIdx :=
                         if pt.blockIdx = s.cacheIdx then 0
                         else if pt.blockIdx < s.cacheIdx then s.cacheIdx - 1
                         else s.cacheIdx,
                       total_count := dec32 s.total_count,
                       reserved_count := dec32 r1 }
            else { s with blocks := s.blocks.set pt.blockIdx nb,
                          reserved_count := r1 }
          else { s with blocks := s.blocks.set pt.blockIdx nb }
        else s

/-- The scan of `prepare_bulk`'s while loop: position and contents of the
first block holding at least `c` free units, or `none` when the walk runs
off the end (every block has fewer than `c` free units). -/
def findBulk (c : Nat) : List SlabBlock → Option (Nat × SlabBlock)
  | [] => none
  | b :: bs =>
    if c ≤ popcnt64 b.bitMap then some (0, b)
    else (findBulk c bs).map (fun pc => (pc.1 + 1, pc.2))

/-- `SlabAllocator::prepare_bulk`.  Rejects `count > 64`; caches the first
block with enough free units; otherwise creates a fresh block at the head
(failure of `_malloc` modelled by `ok = false`).  The `blocks = []` case is
unreachable in the source (`head` is never null); there the source's loop
is skipped and nothing but the (null) cache changes. -/
def SlabAllocator.prepare_bulk (ok : Bool) (count : Nat) (s : SlabAllocator) :
    Bool × SlabAllocator :=
  if 64 < count then (false, s)
  else
    match findBulk count s.blocks with
    | some qb => (true, { s with cacheIdx := qb.1 })
    | none =>
      if s.blocks.isEmpty then (true, s)
      else if ok then
        (true, { s with blocks := SlabBlock.fresh :: s.blocks, cacheIdx := 0,
                        total_count := inc32 s.total_count })
      else (false, s)

/-- One pass of `reclaim`'s while loop over the tail of the list (the loop
starts at `head->next`): returns the surviving tail and the number of
destroyed (empty) blocks. -/
def reclaimSplit : List SlabBlock → List SlabBlock × Nat
  | [] => ([], 0)
  | b :: bs =>
    let r := reclaimSplit bs
    if b.isEmpty then (r.1, r.2 + 1) else (b :: r.1, r.2)

/-- `SlabAllocator::reclaim`: destroy every empty block of the tail
(`head` itself is never examined), decrement both counters per destroyed
block, reset `cache` to `head`, and return the number destroyed. -/
def SlabAllocator.reclaim (s : SlabAllocator) : Nat × SlabAllocator :=
  match s.blocks with
  | [] => (0, s)
  | h :: t =>
    let r := reclaimSplit t
    (r.2, { s with blocks := h :: r.1, cacheIdx := 0,
                   total_count := dec32Iter s.total_count r.2,
                   reserved_count := dec32Iter s.reserved_count r.2 })

/-- `n` consecutive `allocate` calls; returns how many of them succeeded
(returned a non-null payload) together with the final state. -/
def allocN (ok : Bool) : Nat → SlabAllocator → Nat × SlabAllocator
  | 0, s => (0, s)
  | n + 1, s =>
    let r := s.allocate ok
    let k := allocN ok n r.2
    ((if r.1.isSome then 1 else 0) + k.1, k.2)

/-! ### Concrete states and call traces used by individual claims -/

/-- An allocator with 5 live blocks, 3 of them empty, where the *head* block
is one of the empty ones (blocks: empty, full, empty, empty, full). -/
def cxE : SlabAllocator :=
  { tag := 0, unitMetaSize := 40,
    blocks := [⟨U64MAX⟩, ⟨0⟩, ⟨U64MAX⟩, ⟨U64MAX⟩, ⟨0⟩],
    cacheIdx := 0, total_count := 5, reserved_count := 3, reserved_limit := 4 }

/-- An allocator with 5 live blocks, 3 of them empty, where the head block
is *not* empty (blocks: full, empty, empty, empty, full). -/
def cxD : SlabAllocator :=
  { tag := 0, unitMetaSize := 40,
    blocks := [⟨0⟩, ⟨U64MAX⟩, ⟨U64MAX⟩, ⟨U64MAX⟩, ⟨0⟩],
    cacheIdx := 0, total_count := 5, reserved_count := 3, reserved_limit := 4 }

/-- C2 trace: `SlabAllocator(32, 4)`, then one `allocate`, then
`prepare_bulk(64)` (which must create a block: the only block has 63 free
units). -/
def c2_s0 : SlabAllocator := SlabAllocator.create 0 32 4

def c2_s1 : SlabAllocator := (c2_s0.allocate true).2

def c2_s2 : SlabAllocator := (c2_s1.prepare_bulk true 64).2

/-- C3 trace: `SlabAllocator(32, 1)`; allocate; `prepare_bulk(64)` creates
an empty head block without incrementing `reserved_count`; allocating from
that empty cache block underflows `reserved_count` to `2^32 - 1`; a second
allocation and then a deallocation that leaves the block non-empty return
with `reserved_count` still far above `reserved_limit`. -/
def c3_s0 : SlabAllocator := SlabAllocator.create 0 32 1

def c3_s1 : SlabAllocator := (c3_s0.allocate true).2

def c3_s2 : SlabAllocator := (c3_s1.prepare_bulk true 64).2

def c3_s3 : SlabAllocator := (c3_s2.allocate true).2

def c3_s4 : SlabAllocator := (c3_s3.allocate true).2

def c3_s5 : SlabAllocator := c3_s4.deallocate (some ⟨0, 0, 0⟩)

/-- C10 trace: `SlabAllocator(32, 1)`; three blocks are created (two of
them by `prepare_bulk`, which forgets to count them as reserved), each with
exactly one unit allocated; `reserved_count` underflows to `2^32 - 2`;
freeing the three outstanding units then destroys all three blocks — the
last deallocation removes the final block, after which the source executes
`this->head->prev = nullptr` on a null `head`. -/
def c10_s0 : SlabAllocator := SlabAllocator.create 0 32 1

def c10_s1 : SlabAllocator := (c10_s0.allocate true).2

def c10_s2 : SlabAllocator := (c10_s1.prepare_bulk true 64).2

def c10_s3 : SlabAllocator := (c10_s2.allocate true).2

def c10_s4 : SlabAllocator := (c10_s3.prepare_bulk true 64).2

def c10_s5 : SlabAllocator := (c10_s4.allocate true).2

def c10_s6 : SlabAllocator := c10_s5.deallocate (some ⟨0, 2, 0⟩)

def c10_s7 : SlabAllocator := c10_s6.deallocate (some ⟨0, 1, 0⟩)

def c10_s8 : SlabAllocator := c10_s7.deallocate (some ⟨0, 0, 0⟩)

/-- C5 witness state: a single full block, a valid cache pointer to it. -/
def c5W : SlabAllocator :=
  { tag := 0, unitMetaSize := 40, blocks := [⟨0⟩],
    cacheIdx := 0, total_count := 1, reserved_count := 0, reserved_limit := 1 }

/-- C9 witness state: five full blocks followed by one free block; the
cache points at the (full) head, so the scan walks five steps and promotes. -/
def c9W : SlabAllocator :=
  { tag := 0, unitMetaSize := 40,
    blocks := [⟨0⟩, ⟨0⟩, ⟨0⟩, ⟨0⟩, ⟨0⟩, ⟨U64MAX⟩],
    cacheIdx := 0, total_count := 6, reserved_count := 1, reserved_limit := 4 }

/-- The state Scenario C starts its allocations from: `prepare_bulk(64)` on
a fresh allocator (whose single block is empty, hence already has 64 free
units, so no block is created). -/
def scenC_state : SlabAllocator := ((SlabAllocator.create 0 32 4).prepare_bulk true 64).2

/-- Scenario C of the spec, as evaluated facts: after `prepare_bulk(64)` on
a fresh allocator, 64 allocations all succeed with no block created, and a
65th allocation creates exactly one more block. -/
abbrev ScenC : Prop :=
  (allocN true 64 scenC_state).1 = 64
  ∧ (allocN true 64 scenC_state).2.total_count = 1
  ∧ (allocN true 64 scenC_state).2.blocks.length = 1
  ∧ scenC_state.total_count = 1
  ∧ scenC_state.blocks.length = 1
  ∧ (allocN true 65 scenC_state).1 = 65
  ∧ (allocN true 65 scenC_state).2.total_count = 2
  ∧ (allocN true 65 scenC_state).2.blocks.length = 2

/-- The conclusion of claim C6 for a `prepare_bulk(n)` call that returned
`true` on state `s`: the cache block has at least `n` free units; the next
`n` allocations (with any `_malloc` oracle) all succeed and neither create
nor destroy a block; if no block had `n` free units, exactly one fresh
block was created and placed at the head; and Scenario C holds. -/
def C6Spec (ok : Bool) (n : Nat) (s : SlabAllocator) : Prop :=
  (∃ cb, (s.prepare_bulk ok n).2.blocks[(s.prepare_bulk ok n).2.cacheIdx]? = some cb
     ∧ n ≤ popcnt64 cb.bitMap ∧ cb.bitMap < 2 ^ 64)
  ∧ (∀ ok2 : Bool,
      (allocN ok2 n (s.prepare_bulk ok n).2).1 = n
      ∧ (allocN ok2 n (s.prepare_bulk ok n).2).2.total_count =
          (s.prepare_bulk ok n).2.total_count
      ∧ (allocN ok2 n (s.prepare_bulk ok n).2).2.blocks.length =
          (s.prepare_bulk ok n).2.blocks.length)
  ∧ ((∀ b ∈ s.blocks, popcnt64 b.bitMap < n) →
      (s.prepare_bulk ok n).2.blocks = SlabBlock.fresh :: s.blocks
      ∧ (s.prepare_bulk ok n).2.total_count = inc32 s.total_count
      ∧ (s.prepare_bulk ok n).2.cacheIdx = 0)
  ∧ ScenC

/-! ### Properties of the bit primitives -/

theorem ctzAux_spec : ∀ (fuel n : Nat), n ≠ 0 → n < 2 ^ fuel →
    n.testBit (ctzAux fuel n) = true ∧ ∀ j, j < ctzAux fuel n → n.testBit j = false := by
  intro fuel
  induction fuel with
  | zero =>
    intro n h0 hlt
    exact absurd (Nat.lt_one_iff.mp hlt) h0
  | succ fuel ih =>
    intro n h0 hlt
    unfold ctzAux
    by_cases h2 : n % 2 = 1
    · rw [if_pos h2]
      refine ⟨by simp [h2], fun j hj => absurd hj (Nat.not_lt_zero j)⟩
    · rw [if_neg h2]
      have hmod : n % 2 = 0 := by omega
      have hne : n / 2 ≠ 0 := by
        intro h
        have := Nat.div_add_mod n 2
        omega
      have hlt2 : n / 2 < 2 ^ fuel := by
        have hp : 2 ^ (fuel + 1) = 2 ^ fuel * 2 := Nat.pow_succ 2 fuel
        omega
      obtain ⟨ht, hlow⟩ := ih (n / 2) hne hlt2
      refine ⟨by rw [Nat.testBit_succ]; exact ht, ?_⟩
      intro j hj
      match j with
      | 0 => simp [hmod]
      | j + 1 =>
        rw [Nat.testBit_succ]
        exact hlow j (by omega)

theorem ctz64_testBit {b : Nat} (h0 : b ≠ 0) (hb : b < 2 ^ 64) :
    b.testBit (ctz64 b) = true :=
  (ctzAux_spec 64 b h0 hb).1

theorem ctz64_low {b : Nat} (h0 : b ≠ 0) (hb : b < 2 ^ 64) :
    ∀ j, j < ctz64 b → b.testBit j = false :=
  (ctzAux_spec 64 b h0 hb).2

theorem ctz64_lt {b : Nat} (h0 : b ≠ 0) (hb : b < 2 ^ 64) : ctz64 b < 64 := by
  by_contra hge
  have hle : 2 ^ 64 ≤ 2 ^ ctz64 b := Nat.pow_le_pow_right (by omega) (by omega)
  have : b.testBit (ctz64 b) = false := Nat.testBit_lt_two_pow (lt_of_lt_of_le hb hle)
  rw [ctz64_testBit h0 hb] at this
  exact Bool.true_eq_false.mp this

theorem testBit_U64MAX (j : Nat) : U64MAX.testBit j = decide (j < 64) := by
  rw [show U64MAX = 2 ^ 64 - 1 from rfl]
  exact Nat.testBit_two_pow_sub_one 64 j

theorem testBit_set_zero (b i j : Nat) :
    (set_zero b i).testBit j = (b.testBit j && (decide (j < 64) ^^ decide (i = j))) := by
  rw [set_zero, Nat.testBit_and, Nat.testBit_xor, testBit_U64MAX, Nat.testBit_two_pow]

theorem testBit_set_zero_self {b i : Nat} (hi : i < 64) :
    (set_zero b i).testBit i = false := by
  simp [testBit_set_zero, hi]

theorem testBit_set_zero_ne {b i j : Nat} (hne : j ≠ i) (hb : b < 2 ^ 64) :
    (set_zero b i).testBit j = b.testBit j := by
  rw [testBit_set_zero]
  by_cases hj : j < 64
  · simp [hj, Ne.symm hne]
  · have h1 : b.testBit j = false := by
      have hle : 2 ^ 64 ≤ 2 ^ j := Nat.pow_le_pow_right (by omega) (by omega)
      exact Nat.testBit_lt_two_pow (lt_of_lt_of_le hb hle)
    simp [h1]

theorem set_zero_le (b i : Nat) : set_zero b i ≤ b := Nat.and_le_left

theorem set_zero_lt64 {b : Nat} (i : Nat) (hb : b < 2 ^ 64) : set_zero b i < 2 ^ 64 :=
  lt_of_le_of_lt (set_zero_le b i) hb

theorem popcnt64_zero : popcnt64 0 = 0 := by decide

theorem popcnt64_max : popcnt64 U64MAX = 64 := by decide

theorem ne_zero_of_popcnt64 {b : Nat} (h : 0 < popcnt64 b) : b ≠ 0 := by
  rintro rfl
  rw [popcnt64_zero] at h
  exact absurd h (by omega)

theorem countP_clear {i : Nat} {p q : Nat → Bool} (hpi : p i = true) (hqi : q i = false) :
    ∀ l : List Nat, l.Nodup → i ∈ l → (∀ x ∈ l, x ≠ i → q x = p x) →
      l.countP q + 1 = l.countP p := by
  intro l
  induction l with
  | nil => intro _ hmem _; cases hmem
  | cons a t ih =>
    intro hnd hmem hagree
    have hnd2 := List.nodup_cons.mp hnd
    by_cases ha : a = i
    · subst ha
      have hqt : t.countP q = t.countP p := by
        refine List.countP_congr ?_
        intro x hx
        have hxa : x ≠ a := fun h => hnd2.1 (h ▸ hx)
        rw [hagree x (List.mem_cons_of_mem a hx) hxa]
      rw [List.countP_cons, List.countP_cons, hqt, hqi, hpi]
      simp
    · have hit : i ∈ t := by
        rcases List.mem_cons.mp hmem with h | h
        · exact absurd h.symm ha
        · exact h
      have hqa : q a = p a := hagree a (List.mem_cons_self a t) ha
      have ihr := ih hnd2.2 hit (fun x hx hxi => hagree x (List.mem_cons_of_mem a hx) hxi)
      rw [List.countP_cons, List.countP_cons, hqa]
      omega

theorem popcnt64_set_zero {b i : Nat} (hi : i < 64) (hbit : b.testBit i = true) :
    popcnt64 (set_zero b i) + 1 = popcnt64 b := by
  unfold popcnt64
  refine countP_clear hbit (testBit_set_zero_self hi) (List.range 64) (List.nodup_range 64)
    (List.mem_range.mpr hi) ?_
  intro x hx hxi
  rw [testBit_set_zero]
  simp [List.mem_range.mp hx, Ne.symm hxi]

/-! ### List plumbing lemmas -/

theorem getElem?_set_of_some {α : Type} {l : List α} {i : Nat} {a : α} (b : α)
    (h : l[i]? = some a) : (l.set i b)[i]? = some b := by
  have hlen : i < l.length := by
    rcases List.getElem?_eq_some.mp h with ⟨h1, _⟩
    exact h1
  exact List.getElem?_set_eq_of_lt b hlen

theorem mem_of_getElem?_some {α : Type} {l : List α} {i : Nat} {a : α}
    (h : l[i]? = some a) : a ∈ l := by
  rcases List.getElem?_eq_some.mp h with ⟨h1, h2⟩
  exact h2 ▸ List.getElem_mem h1

theorem set_append_len {α : Type} (F R : List α) (b nb : α) :
    (F ++ b :: R).set F.length nb = F ++ nb :: R := by
  induction F with
  | nil => rfl
  | cons x t ih => simp [ih]

theorem eraseIdx_append_len {α : Type} (F R : List α) (b : α) :
    (F ++ b :: R).eraseIdx F.length = F ++ R := by
  induction F with
  | nil => rfl
  | cons x t ih => simpa using ih

/-! ### Characterizing the list scans -/

theorem findNonFull_eq_none {l : List SlabBlock} :
    findNonFull l = none ↔ ∀ b ∈ l, b.isFull = true := by
  induction l with
  | nil => simp [findNonFull]
  | cons b bs ih =>
    by_cases hf : b.isFull
    · simp [findNonFull, hf, ih]
    · simp [findNonFull, hf]

theorem findNonFull_append (F R : List SlabBlock) (b : SlabBlock)
    (hF : ∀ f ∈ F, f.isFull = true) (hb : b.isFull = false) :
    findNonFull (F ++ b :: R) = some (F.length, b) := by
  induction F with
  | nil => simp [findNonFull, hb]
  | cons x t ih =>
    have hx : x.isFull = true := hF x (List.mem_cons_self x t)
    have ihr := ih (fun f hf => hF f (List.mem_cons_of_mem x hf))
    simp [findNonFull, hx, ihr]

theorem findBulk_eq_none {c : Nat} {l : List SlabBlock} :
    findBulk c l = none ↔ ∀ b ∈ l, popcnt64 b.bitMap < c := by
  induction l with
  | nil => simp [findBulk]
  | cons b bs ih =>
    by_cases hc : c ≤ popcnt64 b.bitMap
    · simp [findBulk, hc]
    · simp [findBulk, hc, ih]
      omega

theorem findBulk_some {c : Nat} {l : List SlabBlock} {q : Nat} {cb : SlabBlock} :
    findBulk c l = some (q, cb) → l[q]? = some cb ∧ c ≤ popcnt64 cb.bitMap := by
  induction l generalizing q with
  | nil => intro h; cases h
  | cons b bs ih =>
    intro h
    by_cases hc : c ≤ popcnt64 b.bitMap
    · rw [findBulk, if_pos hc] at h
      have h2 : ((0 : Nat), b) = (q, cb) := Option.some.inj h
      have hq : (0 : Nat) = q := congrArg Prod.fst h2
      have hb : b = cb := congrArg Prod.snd h2
      subst hb
      rw [← hq]
      exact ⟨by simp, hc⟩
    · rw [findBulk, if_neg hc] at h
      cases hfb : findBulk c bs with
      | none => rw [hfb] at h; cases h
      | some pc =>
        rw [hfb] at h
        have h2 : (pc.1 + 1, pc.2) = (q, cb) := Option.some.inj h
        have hq : pc.1 + 1 = q := congrArg Prod.fst h2
        have hb : pc.2 = cb := congrArg Prod.snd h2
        have hfb2 : findBulk c bs = some (pc.1, cb) := by rw [hfb, ← hb]
        obtain ⟨hget, hpc⟩ := ih hfb2
        subst hq
        refine ⟨?_, hpc⟩
        simpa using hget

theorem reclaimSplit_eq (l : List SlabBlock) :
    reclaimSplit l = (l.filter (fun b => !b.isEmpty), l.countP (fun b => b.isEmpty)) := by
  induction l with
  | nil => rfl
  | cons b bs ih =>
    by_cases he : b.isEmpty
    · simp [reclaimSplit, ih, he, List.countP_cons]
    · simp [reclaimSplit, ih, he, List.countP_cons]

/-! ### Unfolding lemmas for allocate -/

theorem allocate_fast (ok : Bool) {s : SlabAllocator} {cb : SlabBlock}
    (hc : s.blocks[s.cacheIdx]? = some cb) (hnf : cb.isFull = false) :
    s.allocate ok =
      (some (s.cacheIdx, ctz64 cb.bitMap),
       { s with blocks := s.blocks.set s.cacheIdx ⟨set_zero cb.bitMap (ctz64 cb.bitMap)⟩,
                reserved_count :=
                  if cb.isEmpty then dec32 s.reserved_count else s.reserved_count }) := by
  unfold SlabAllocator.allocate
  rw [hc]
  simp [hnf, SlabBlock.allocateUnit]

theorem allocate_cacheFull (ok : Bool) {s : SlabAllocator} {cb : SlabBlock}
    (hc : s.blocks[s.cacheIdx]? = some cb) (hf : cb.isFull = true) :
    s.allocate ok = s.allocSlow ok := by
  unfold SlabAllocator.allocate
  rw [hc]
  simp [hf]

theorem allocN_succ (ok : Bool) (n : Nat) (s : SlabAllocator) :
    allocN ok (n + 1) s =
      ((if (s.allocate ok).1.isSome then 1 else 0) + (allocN ok n (s.allocate ok).2).1,
       (allocN ok n (s.allocate ok).2).2) := rfl

/-- Core bulk-guarantee induction: while the cache block holds at least `n`
free units, `n` consecutive `allocate` calls are all served from the cache
via the fast path: all succeed, no block is created or destroyed, and the
cache position does not move. -/
theorem allocN_from_cache (ok : Bool) : ∀ (n : Nat) (s : SlabAllocator) (cb : SlabBlock),
    s.blocks[s.cacheIdx]? = some cb → cb.bitMap < 2 ^ 64 → n ≤ popcnt64 cb.bitMap →
    (allocN ok n s).1 = n
    ∧ (allocN ok n s).2.total_count = s.total_count
    ∧ (allocN ok n s).2.blocks.length = s.blocks.length
    ∧ (allocN ok n s).2.cacheIdx = s.cacheIdx := by
  intro n
  induction n with
  | zero =>
    intro s cb hc hlt hn
    exact ⟨rfl, rfl, rfl, rfl⟩
  | succ n ih =>
    intro s cb hc hlt hn
    have hpos : 0 < popcnt64 cb.bitMap := by omega
    have hne0 : cb.bitMap ≠ 0 := ne_zero_of_popcnt64 hpos
    have hnf : cb.isFull = false := by
      simp [SlabBlock.isFull]
      exact hne0
    have hfast := allocate_fast ok hc hnf
    have hi64 : ctz64 cb.bitMap < 64 := ctz64_lt hne0 hlt
    have hbit : cb.bitMap.testBit (ctz64 cb.bitMap) = true := ctz64_testBit hne0 hlt
    have hpc : popcnt64 (set_zero cb.bitMap (ctz64 cb.bitMap)) + 1 = popcnt64 cb.bitMap :=
      popcnt64_set_zero hi64 hbit
    have hc1 : (s.blocks.set s.cacheIdx
        (⟨set_zero cb.bitMap (ctz64 cb.bitMap)⟩ : SlabBlock))[s.cacheIdx]? =
        some ⟨set_zero cb.bitMap (ctz64 cb.bitMap)⟩ :=
      getElem?_set_of_some _ hc
    have hc2 : ((s.allocate ok).2).blocks[((s.allocate ok).2).cacheIdx]? =
        some ⟨set_zero cb.bitMap (ctz64 cb.bitMap)⟩ := by
      rw [hfast]
      exact hc1
    have key := ih ((s.allocate ok).2) ⟨set_zero cb.bitMap (ctz64 cb.bitMap)⟩ hc2
      (set_zero_lt64 _ hlt)
      (show n ≤ popcnt64 (set_zero cb.bitMap (ctz64 cb.bitMap)) by omega)
    obtain ⟨k1, k2, k3, k4⟩ := key
    have ht : ((s.allocate ok).2).total_count = s.total_count := by rw [hfast]
    have hl : ((s.allocate ok).2).blocks.length = s.blocks.length := by
      rw [hfast]
      simp
    have hcx : ((s.allocate ok).2).cacheIdx = s.cacheIdx := by rw [hfast]
    have h1 : (allocN ok (n + 1) s).1 = 1 + (allocN ok n ((s.allocate ok).2)).1 := by
      simp [allocN_succ, hfast]
    have h2 : (allocN ok (n + 1) s).2 = (allocN ok n ((s.allocate ok).2)).2 := by
      simp [allocN_succ]
    refine ⟨?_, ?_, ?_, ?_⟩
    · rw [h1, k1]
      omega
    · rw [h2, k2, ht]
    · rw [h2, k3, hl]
    · rw [h2, k4, hcx]

/-! ### Claim theorems -/

/-- C7: starting from a freshly constructed allocator with `unit_size = 32`
and `reserved_limit = 2`, 200 `allocate()` calls with no intervening frees
all succeed and leave `total() == 4` and `reserved() == 0` (Scenario A). -/
theorem C7_scenarioA :
    (allocN true 200 (SlabAllocator.create 0 32 2)).1 = 200
    ∧ (allocN true 200 (SlabAllocator.create 0 32 2)).2.total_count = 4
    ∧ (allocN true 200 (SlabAllocator.create 0 32 2)).2.reserved_count = 0 := by
  decide

/-- C2 (code bug evidence): after `SlabAllocator(32, 4)`, one `allocate`,
and a `prepare_bulk(64)` that created a new block, the allocator holds
exactly one empty live block but `reserved_count = 0`: `prepare_bulk`'s
create path never increments `reserved_count`, so the claimed invariant
`reserved_count = number of empty live blocks` is broken exactly where the
claim says it should hold, and the very next `allocate` from this state
violates the source's own `assert(this->reserved_count > 0)`. -/
theorem C2_prepare_bulk_reserved_eval :
    c2_s2.blocks.countP (fun b => b.isEmpty) = 1
    ∧ c2_s2.reserved_count = 0
    ∧ c2_s2.blocks.length = 2
    ∧ c2_s1.blocks.length = 1
    ∧ c2_s1.reserved_count = 0
    ∧ c2_s1.blocks.countP (fun b => b.isEmpty) = 0 := by
  decide

/-- C3 (code bug evidence): in the reachable state `c3_s4` (seeded by the
`prepare_bulk` bug of C2 and the resulting `uint32` underflow of
`reserved_count`), the `deallocate` call producing `c3_s5` returns with
`reserved_count = 2^32 - 1 > reserved_limit = 1`, contradicting the claimed
retention bound. -/
theorem C3_retention_bound_eval :
    c3_s5.reserved_limit = 1
    ∧ c3_s5.reserved_count = 2 ^ 32 - 1
    ∧ c3_s5.reserved_limit < c3_s5.reserved_count := by
  decide

/-- C10 (code bug evidence): the reachable trace `c10_s0 … c10_s8` ends
with `deallocate` destroying the one remaining block: the block list
becomes empty and `total_count` becomes `0`, contradicting the claimed
invariant (in the source this very step executes
`this->head->prev = nullptr` with `head == nullptr`). -/
theorem C10_nonempty_eval :
    c10_s7.blocks.length = 1
    ∧ c10_s8.blocks = []
    ∧ c10_s8.total_count = 0 := by
  decide

/-- C1 (counterexample): on `cxE` — 5 live blocks, 3 of them empty, with
the *head* block empty — `reclaim()` returns `2`, not `3`, and leaves
`total() = 3` and `reserved() = 1`: the head block is never destroyed, so
the claim's "including the head block when it is empty" and its
position-independent Scenario D reading are false. -/
theorem C1_counterexample :
    cxE.total_count = 5
    ∧ cxE.blocks.countP (fun b => b.isEmpty) = 3
    ∧ (cxE.reclaim).1 = 2
    ∧ ¬((cxE.reclaim).1 = 3)
    ∧ (cxE.reclaim).2.total_count = 3
    ∧ ¬((cxE.reclaim).2.total_count = 2)
    ∧ (cxE.reclaim).2.reserved_count = 1
    ∧ ¬((cxE.reclaim).2.reserved_count = 0) := by
  decide

/-- C8: on every allocation served from a non-full block, `allocateUnit`
grants the unit at the lowest-index free bit of the bitmap (the
count-trailing-zeros position), clears exactly that bit, and leaves every
other bit unchanged. -/
theorem C8_allocateUnit_lowest (b : Nat) (h64 : b < 2 ^ 64) (h0 : b ≠ 0) :
    (SlabBlock.mk b).allocateUnit = (ctz64 b, ⟨set_zero b (ctz64 b)⟩)
    ∧ b.testBit (ctz64 b) = true
    ∧ (∀ j, j < ctz64 b → b.testBit j = false)
    ∧ (set_zero b (ctz64 b)).testBit (ctz64 b) = false
    ∧ (∀ j, j ≠ ctz64 b → (set_zero b (ctz64 b)).testBit j = b.testBit j) :=
  ⟨rfl, ctz64_testBit h0 h64, ctz64_low h0 h64,
   testBit_set_zero_self (ctz64_lt h0 h64),
   fun _ hj => testBit_set_zero_ne hj h64⟩

/-- Witness for C8 at the concrete bitmap `12 = 0b1100` (lowest free bit 2). -/
theorem C8_allocateUnit_lowest_witness :
    ((12 : Nat) < 2 ^ 64 ∧ (12 : Nat) ≠ 0)
    ∧ ((SlabBlock.mk 12).allocateUnit = (ctz64 12, ⟨set_zero 12 (ctz64 12)⟩)
       ∧ Nat.testBit 12 (ctz64 12) = true
       ∧ (∀ j, j < ctz64 12 → Nat.testBit 12 j = false)
       ∧ (set_zero 12 (ctz64 12)).testBit (ctz64 12) = false
       ∧ (∀ j, j ≠ ctz64 12 → (set_zero 12 (ctz64 12)).testBit j = Nat.testBit 12 j)) :=
  ⟨⟨by decide, by decide⟩, C8_allocateUnit_lowest 12 (by decide) (by decide)⟩

/-- C4: every misuse call of `deallocate` — null pointer, recovered unit
index `≥ 64`, pointer owned by a different allocator, or double free — is
a reported no-op: the allocator state is returned unchanged.  The given
allocator is the callee; a foreign pointer (owner tag differing from the
callee's) covers the two-allocator case, and the pointer's own allocator is
untouched because `deallocate` is a pure function of the callee alone. -/
theorem C4_misuse_noop (s : SlabAllocator) (p : Option Ptr)
    (h : p = none
       ∨ ∃ pt, p = some pt ∧
          (64 ≤ pt.unitIdx
           ∨ pt.owner ≠ s.tag
           ∨ ∃ b, s.blocks[pt.blockIdx]? = some b ∧ b.bitMap.testBit pt.unitIdx = true)) :
    s.deallocate p = s := by
  rcases h with rfl | ⟨pt, rfl, hcase⟩
  · rfl
  · unfold SlabAllocator.deallocate
    by_cases h64 : 64 ≤ pt.unitIdx
    · simp [h64]
    · rcases hcase with hbad | howner | ⟨b, hget, hfree⟩
      · exact absurd hbad h64
      · simp [h64, howner]
      · by_cases howner2 : pt.owner ≠ s.tag
        · simp [h64, howner2]
        · simp [h64, howner2, hget, SlabBlock.isUnitAllocated, bitsGet, hfree]

/-- Witness for C4: a pointer whose recovered owner is allocator tag 0
(allocator "A") handed to the `deallocate` of the distinct allocator with
tag 1 ("B"): rejected, B unchanged. -/
theorem C4_misuse_noop_witness :
    (0 : Nat) ≠ (SlabAllocator.create 1 32 4).tag
    ∧ (SlabAllocator.create 1 32 4).deallocate (some ⟨0, 0, 3⟩) =
        SlabAllocator.create 1 32 4 :=
  ⟨by decide,
   C4_misuse_noop (SlabAllocator.create 1 32 4) (some ⟨0, 0, 3⟩)
     (Or.inr ⟨⟨0, 0, 3⟩, rfl, Or.inr (Or.inl (by decide))⟩)⟩

/-- C5: when `allocate` must create a new block (the cache block and every
block of the list are full) and the raw memory source fails, `allocate`
returns the failure signal `none` to its caller — the source path prints a
diagnostic and `return nullptr`, it does not `exit` — and the allocator
state is completely unchanged. -/
theorem C5_alloc_fail_noop (s : SlabAllocator) (cb : SlabBlock)
    (hc : s.blocks[s.cacheIdx]? = some cb)
    (hall : ∀ b ∈ s.blocks, b.isFull = true) :
    s.allocate false = (none, s) := by
  have hcf : cb.isFull = true := hall cb (mem_of_getElem?_some hc)
  rw [allocate_cacheFull false hc hcf]
  unfold SlabAllocator.allocSlow
  rw [findNonFull_eq_none.mpr hall]
  rfl

/-- Witness for C5: one full block, cache on it, failing raw source. -/
theorem C5_alloc_fail_noop_witness :
    (c5W.blocks[c5W.cacheIdx]? = some ⟨0⟩ ∧ ∀ b ∈ c5W.blocks, b.isFull = true)
    ∧ c5W.allocate false = (none, c5W) :=
  ⟨⟨by decide, by decide⟩, C5_alloc_fail_noop c5W ⟨0⟩ (by decide) (by decide)⟩

/-- C1 (amended): `reclaim()` destroys every currently-empty block of the
tail of the list but never the head block (even when the head is empty),
returns the number of blocks destroyed, decrements `total_count` and
`reserved_count` once per destroyed block, and sets `cache` to the head;
consequently Scenario D (`reclaim` on 5 blocks with 3 empty returns 3 and
leaves `total() = 2`, `reserved() = 0`) holds whenever the head block is
not one of the empty ones, as in `cxD`. -/
theorem C1_reclaim_amended (s : SlabAllocator) (h : SlabBlock) (t : List SlabBlock)
    (hb : s.blocks = h :: t) :
    (s.reclaim).1 = t.countP (fun b => b.isEmpty)
    ∧ (s.reclaim).2.blocks = h :: t.filter (fun b => !b.isEmpty)
    ∧ (s.reclaim).2.cacheIdx = 0
    ∧ (s.reclaim).2.total_count = dec32Iter s.total_count (t.countP (fun b => b.isEmpty))
    ∧ (s.reclaim).2.reserved_count = dec32Iter s.reserved_count (t.countP (fun b => b.isEmpty))
    ∧ ((cxD.reclaim).1 = 3 ∧ (cxD.reclaim).2.total_count = 2
       ∧ (cxD.reclaim).2.reserved_count = 0) := by
  have e : s.reclaim =
      ((reclaimSplit t).2,
       { s with blocks := h :: (reclaimSplit t).1, cacheIdx := 0,
                total_count := dec32Iter s.total_count (reclaimSplit t).2,
                reserved_count := dec32Iter s.reserved_count (reclaimSplit t).2 }) := by
    unfold SlabAllocator.reclaim
    rw [hb]
  simp only [reclaimSplit_eq] at e
  exact ⟨by simp [e], by simp [e], by simp [e], by simp [e], by simp [e], by decide⟩

/-- Witness for C1's amended statement, instantiated at `cxE` (head empty,
three empties among five blocks): `reclaim` keeps the empty head, destroys
the two empty tail blocks, and Scenario D holds on `cxD`. -/
theorem C1_reclaim_amended_witness :
    (cxE.reclaim).1 =
        ([⟨0⟩, ⟨U64MAX⟩, ⟨U64MAX⟩, ⟨0⟩] : List SlabBlock).countP (fun b => b.isEmpty)
    ∧ (cxE.reclaim).2.blocks =
        (⟨U64MAX⟩ : SlabBlock) ::
          ([⟨0⟩, ⟨U64MAX⟩, ⟨U64MAX⟩, ⟨0⟩] : List SlabBlock).filter (fun b => !b.isEmpty)
    ∧ (cxE.reclaim).2.cacheIdx = 0
    ∧ (cxE.reclaim).2.total_count =
        dec32Iter cxE.total_count
          (([⟨0⟩, ⟨U64MAX⟩, ⟨U64MAX⟩, ⟨0⟩] : List SlabBlock).countP (fun b => b.isEmpty))
    ∧ (cxE.reclaim).2.reserved_count =
        dec32Iter cxE.reserved_count
          (([⟨0⟩, ⟨U64MAX⟩, ⟨U64MAX⟩, ⟨0⟩] : List SlabBlock).countP (fun b => b.isEmpty))
    ∧ ((cxD.reclaim).1 = 3 ∧ (cxD.reclaim).2.total_count = 2
       ∧ (cxD.reclaim).2.reserved_count = 0) :=
  C1_reclaim_amended cxE ⟨U64MAX⟩ [⟨0⟩, ⟨U64MAX⟩, ⟨U64MAX⟩, ⟨0⟩] rfl

/-- C9: when the cache is full, `allocate` scans from the head; if the
first non-full block sits behind `k = F.length` full blocks and `k`
exceeds `traverse_threshold`, that block is unlinked and re-inserted at the
head with every other block keeping its relative order; otherwise the list
order is untouched and the found position only becomes the cache.  In both
cases the found block serves the unit at its lowest free bit. -/
theorem C9_promotion (ok : Bool) (s : SlabAllocator) (cb b : SlabBlock)
    (F R : List SlabBlock)
    (hc : s.blocks[s.cacheIdx]? = some cb) (hcf : cb.isFull = true)
    (hsplit : s.blocks = F ++ b :: R)
    (hF : ∀ f ∈ F, f.isFull = true) (hb : b.isFull = false) :
    (s.allocate ok).1 =
        some ((if traverse_threshold < F.length then 0 else F.length), ctz64 b.bitMap)
    ∧ (s.allocate ok).2.blocks =
        (if traverse_threshold < F.length
         then (⟨set_zero b.bitMap (ctz64 b.bitMap)⟩ : SlabBlock) :: (F ++ R)
         else F ++ (⟨set_zero b.bitMap (ctz64 b.bitMap)⟩ : SlabBlock) :: R)
    ∧ (s.allocate ok).2.cacheIdx = (if traverse_threshold < F.length then 0 else F.length)
    ∧ (s.allocate ok).2.total_count = s.total_count := by
  have hslow := allocate_cacheFull ok hc hcf
  have hfind : findNonFull s.blocks = some (F.length, b) := by
    rw [hsplit]
    exact findNonFull_append F R b hF hb
  by_cases hp : traverse_threshold < F.length
  · have he : s.allocSlow ok =
        (some (0, ctz64 b.bitMap),
         { s with blocks := (⟨set_zero b.bitMap (ctz64 b.bitMap)⟩ : SlabBlock) ::
                              s.blocks.eraseIdx F.length,
                  cacheIdx := 0,
                  reserved_count :=
                    if b.isEmpty then dec32 s.reserved_count else s.reserved_count }) := by
      unfold SlabAllocator.allocSlow
      rw [hfind]
      simp [hp, SlabBlock.allocateUnit]
    rw [hslow, he]
    refine ⟨by simp [hp], ?_, by simp [hp], rfl⟩
    simp only [hp, if_true]
    rw [hsplit, eraseIdx_append_len]
  · have he : s.allocSlow ok =
        (some (F.length, ctz64 b.bitMap),
         { s with blocks := s.blocks.set F.length
                              (⟨set_zero b.bitMap (ctz64 b.bitMap)⟩ : SlabBlock),
                  cacheIdx := F.length,
                  reserved_count :=
                    if b.isEmpty then dec32 s.reserved_count else s.reserved_count }) := by
      unfold SlabAllocator.allocSlow
      rw [hfind]
      simp [hp, SlabBlock.allocateUnit]
    rw [hslow, he]
    refine ⟨by simp [hp], ?_, by simp [hp], rfl⟩
    simp only [hp, if_false]
    rw [hsplit, set_append_len]

/-- Witness for C9 at `c9W`: the cache (head) and four more blocks are
full, the first non-full block sits at position 5 > 4, so it is promoted
to the head. -/
theorem C9_promotion_witness :
    (c9W.allocate true).1 =
        some ((if traverse_threshold < ([⟨0⟩, ⟨0⟩, ⟨0⟩, ⟨0⟩, ⟨0⟩] : List SlabBlock).length
               then 0 else ([⟨0⟩, ⟨0⟩, ⟨0⟩, ⟨0⟩, ⟨0⟩] : List SlabBlock).length),
              ctz64 (⟨U64MAX⟩ : SlabBlock).bitMap)
    ∧ (c9W.allocate true).2.blocks =
        (if traverse_threshold < ([⟨0⟩, ⟨0⟩, ⟨0⟩, ⟨0⟩, ⟨0⟩] : List SlabBlock).length
         then (⟨set_zero (⟨U64MAX⟩ : SlabBlock).bitMap
                  (ctz64 (⟨U64MAX⟩ : SlabBlock).bitMap)⟩ : SlabBlock) ::
                (([⟨0⟩, ⟨0⟩, ⟨0⟩, ⟨0⟩, ⟨0⟩] : List SlabBlock) ++ [])
         else ([⟨0⟩, ⟨0⟩, ⟨0⟩, ⟨0⟩, ⟨0⟩] : List SlabBlock) ++
                (⟨set_zero (⟨U64MAX⟩ : SlabBlock).bitMap
                   (ctz64 (⟨U64MAX⟩ : SlabBlock).bitMap)⟩ : SlabBlock) :: [])
    ∧ (c9W.allocate true).2.cacheIdx =
        (if traverse_threshold < ([⟨0⟩, ⟨0⟩, ⟨0⟩, ⟨0⟩, ⟨0⟩] : List SlabBlock).length
         then 0 else ([⟨0⟩, ⟨0⟩, ⟨0⟩, ⟨0⟩, ⟨0⟩] : List SlabBlock).length)
    ∧ (c9W.allocate true).2.total_count = c9W.total_count :=
  C9_promotion true c9W ⟨0⟩ ⟨U64MAX⟩ [⟨0⟩, ⟨0⟩, ⟨0⟩, ⟨0⟩, ⟨0⟩] []
    (by decide) (by decide) rfl (by decide) (by decide)

/-- C6: after any `prepare_bulk(n)` call (`n ≤ 64`) that returns `true`,
the cache block holds at least `n` free units, so the next `n` `allocate`
calls (under any `_malloc` oracle) all succeed with no block created or
destroyed; if no existing block had `n` free units, exactly one fresh block
was created and inserted at the head; and Scenario C holds. -/
theorem C6_prepare_bulk_guarantee (ok : Bool) (n : Nat) (s : SlabAllocator)
    (hn : n ≤ 64) (hne : s.blocks ≠ [])
    (hball : ∀ b ∈ s.blocks, b.bitMap < 2 ^ 64)
    (hret : (s.prepare_bulk ok n).1 = true) :
    C6Spec ok n s := by
  unfold C6Spec
  have hn2 : ¬64 < n := by omega
  cases hfb : findBulk n s.blocks with
  | some qb =>
    have hs2 : (s.prepare_bulk ok n).2 = { s with cacheIdx := qb.1 } := by
      unfold SlabAllocator.prepare_bulk
      rw [if_neg hn2, hfb]
    obtain ⟨hget, hpc⟩ :=
      findBulk_some (show findBulk n s.blocks = some (qb.1, qb.2) by rw [hfb])
    have hlt : qb.2.bitMap < 2 ^ 64 := hball qb.2 (mem_of_getElem?_some hget)
    have hc2 : (s.prepare_bulk ok n).2.blocks[(s.prepare_bulk ok n).2.cacheIdx]? =
        some qb.2 := by
      rw [hs2]
      exact hget
    refine ⟨⟨qb.2, hc2, hpc, hlt⟩, ?_, ?_, by decide⟩
    · intro ok2
      have k := allocN_from_cache ok2 n ((s.prepare_bulk ok n).2) qb.2 hc2 hlt hpc
      exact ⟨k.1, k.2.1, k.2.2.1⟩
    · intro hall
      exact absurd hpc (Nat.not_le.mpr (hall qb.2 (mem_of_getElem?_some hget)))
  | none =>
    obtain ⟨hd, tl, hbk⟩ := List.exists_cons_of_ne_nil hne
    have hni : s.blocks.isEmpty = false := by rw [hbk]; rfl
    cases ok with
    | false =>
      exfalso
      unfold SlabAllocator.prepare_bulk at hret
      rw [if_neg hn2, hfb, hni] at hret
      simp at hret
    | true =>
      have hs2 : (s.prepare_bulk true n).2 =
          { s with blocks := SlabBlock.fresh :: s.blocks, cacheIdx := 0,
                   total_count := inc32 s.total_count } := by
        unfold SlabAllocator.prepare_bulk
        rw [if_neg hn2, hfb, hni]
        rfl
      have hc2 : (s.prepare_bulk true n).2.blocks[(s.prepare_bulk true n).2.cacheIdx]? =
          some SlabBlock.fresh := by
        rw [hs2]
        simp
      have hpc : n ≤ popcnt64 SlabBlock.fresh.bitMap := by
        rw [show SlabBlock.fresh.bitMap = U64MAX from rfl, popcnt64_max]
        omega
      have hlt : SlabBlock.fresh.bitMap < 2 ^ 64 := by decide
      refine ⟨⟨SlabBlock.fresh, hc2, hpc, hlt⟩, ?_, ?_, by decide⟩
      · intro ok2
        have k := allocN_from_cache ok2 n ((s.prepare_bulk true n).2) SlabBlock.fresh hc2 hlt hpc
        exact ⟨k.1, k.2.1, k.2.2.1⟩
      · intro _
        exact ⟨by rw [hs2], by rw [hs2], by rw [hs2]⟩

/-- Witness for C6 at `n = 64` on a fresh allocator (Scenario C's own
starting point): the hypotheses hold concretely and the guarantee follows
by the theorem. -/
theorem C6_prepare_bulk_guarantee_witness :
    ((64 : Nat) ≤ 64 ∧ (SlabAllocator.create 0 32 4).blocks ≠ []
     ∧ (∀ b ∈ (SlabAllocator.create 0 32 4).blocks, b.bitMap < 2 ^ 64)
     ∧ ((SlabAllocator.create 0 32 4).prepare_bulk true 64).1 = true)
    ∧ C6Spec true 64 (SlabAllocator.create 0 32 4) :=
  ⟨⟨by decide, by decide, by decide, by decide⟩,
   C6_prepare_bulk_guarantee true 64 (SlabAllocator.create 0 32 4)
     (by decide) (by decide) (by decide) (by decide)⟩
